import Mathlib

/-!
Verification development for the eye-alignment pipeline
(src/eye_alignment/main.py).

The embedding models:
  * images as a structure carrying height, width and a pixel function
    (the channel axis of an RGB image is absorbed into the pixel type,
    so all images of a batch share the trailing channel dimension by
    typing and a shape is the pair (height, width));
  * floating-point coordinates as exact rationals;
  * the numpy conversion astype(int) as truncation toward zero;
  * Python array slicing img[ylo:yhi, xlo:xhi] with its exact index
    semantics: a negative bound is first shifted by the axis length,
    then every bound is clamped into [0, length];
  * the external RetinaFace detector as a function parameter from
    images to a keyed list of faces, each carrying left-eye and
    right-eye landmark coordinates;
  * Python exceptions as an Except value, with a distinct constructor
    for each exception kind the code can raise;
  * the orchestrator main additionally returns the trace of images
    passed to the detector, in call order, so that statements of the
    form "no detector call is made" are expressible.
-/

set_option autoImplicit false

namespace EyeAlign

/-- Pixel grid with explicit dimensions.  The pixel function is total;
only indices below the dimensions are ever meaningful, and the theorems
about cropping track that bound explicitly. -/
@[ext]
structure Image (α : Type) where
  height : ℕ
  width : ℕ
  pix : ℕ → ℕ → α

/-- Shape of an image as numpy reports it, restricted to the two
spatial axes: (height, width). -/
def Image.shape {α : Type} (img : Image α) : ℕ × ℕ :=
  (img.height, img.width)

/-- Python slice-index resolution for an axis of length n: a negative
index is shifted by n, then the result is clamped into [0, n].  This is
exactly slice.indices for a positive step. -/
def sliceIdx (n : ℕ) (v : ℤ) : ℕ :=
  (max 0 (min (if v < 0 then v + n else v) (n : ℤ))).toNat

/-- Embedding of img[ylo:yhi, xlo:xhi] on a numpy array: both axes are
sliced with Python semantics; the resulting view re-indexes pixels from
the resolved lower bounds. -/
def crop {α : Type} (img : Image α) (ylo yhi xlo xhi : ℤ) : Image α where
  height := sliceIdx img.height yhi - sliceIdx img.height ylo
  width := sliceIdx img.width xhi - sliceIdx img.width xlo
  pix := fun r c => img.pix (sliceIdx img.height ylo + r) (sliceIdx img.width xlo + c)

/-- Truncation toward zero, the conversion performed by astype(int) on
a float value. -/
def truncZ (q : ℚ) : ℤ :=
  if 0 ≤ q then ⌊q⌋ else ⌈q⌉

/-- Componentwise mean of a list of 2-D points, the embedding of
mid_eyes.mean(axis=0) on an N x 2 array. -/
def meanP (l : List (ℚ × ℚ)) : ℚ × ℚ :=
  ((l.map Prod.fst).sum / l.length, (l.map Prod.snd).sum / l.length)

/-- Shift of one midpoint toward the reference midpoint of the batch:
dist_mid_eye - mid_eye. -/
def shiftOf (mids : List (ℚ × ℚ)) (m : ℚ × ℚ) : ℚ × ℚ :=
  ((meanP mids).1 - m.1, (meanP mids).2 - m.2)

/-- Embedding of shifts = dist_mid_eye[None, :] - mid_eyes. -/
def shifts (mids : List (ℚ × ℚ)) : List (ℚ × ℚ) :=
  mids.map (shiftOf mids)

/-- Maximum of a list of rationals, numpy max of a nonempty vector as
a left fold over the remaining entries.  The empty case is never
reached by the code (numpy raises there) and is given an arbitrary
value. -/
def listMax : List ℚ → ℚ
  | [] => 0
  | x :: xs => xs.foldl max x

/-- Minimum of a list of rationals; numpy min of a nonempty vector. -/
def listMin : List ℚ → ℚ
  | [] => 0
  | x :: xs => xs.foldl min x

/-- Embedding of bound_low = shifts.max(axis=0), the columnwise
maximum of the shift array. -/
def bound_low (mids : List (ℚ × ℚ)) : ℚ × ℚ :=
  (listMax ((shifts mids).map Prod.fst), listMax ((shifts mids).map Prod.snd))

/-- Columnwise minimum of the shift array, shifts.min(axis=0). -/
def minShift (mids : List (ℚ × ℚ)) : ℚ × ℚ :=
  (listMin ((shifts mids).map Prod.fst), listMin ((shifts mids).map Prod.snd))

/-- Embedding of bound_low_to_high = (imshape + shifts.min(axis=0) -
bound_low).astype(int), the shared crop size as (width, height); the
image shape enters reversed, shape[:2][::-1] = (width, height). -/
def bound_low_to_high (w h : ℕ) (mids : List (ℚ × ℚ)) : ℤ × ℤ :=
  (truncZ ((w : ℚ) + (minShift mids).1 - (bound_low mids).1),
   truncZ ((h : ℚ) + (minShift mids).2 - (bound_low mids).2))

/-- Embedding of (bound_low - shift).astype(int), the per-image crop
origin (x_crop_low, y_crop_low). -/
def originOfShift (bl : ℚ × ℚ) (s : ℚ × ℚ) : ℤ × ℤ :=
  (truncZ (bl.1 - s.1), truncZ (bl.2 - s.2))

/-- Per-image crop origins of a batch of midpoints, in batch order. -/
def origins (mids : List (ℚ × ℚ)) : List (ℤ × ℤ) :=
  (shifts mids).map (originOfShift (bound_low mids))

/-- Embedding of align_eyes.  The empty batch is none: the source
indexes imgs[0], which raises there.  For a nonempty batch each image
is sliced at [y_crop_low : y_crop_low + size_y, x_crop_low :
x_crop_low + size_x], zipping images with their shifts. -/
def align_eyes {α : Type} (imgs : List (Image α)) (mids : List (ℚ × ℚ)) :
    Option (List (Image α)) :=
  match imgs with
  | [] => none
  | i0 :: _ =>
    some ((imgs.zip (shifts mids)).map fun p =>
      crop p.1
        (originOfShift (bound_low mids) p.2).2
        ((originOfShift (bound_low mids) p.2).2 + (bound_low_to_high i0.width i0.height mids).2)
        (originOfShift (bound_low mids) p.2).1
        ((originOfShift (bound_low mids) p.2).1 + (bound_low_to_high i0.width i0.height mids).1))

/-- Record for one detected face: the two eye landmarks the code
reads.  The real detector result carries further fields which the code
never touches. -/
structure Face where
  left_eye : ℚ × ℚ
  right_eye : ℚ × ℚ
deriving DecidableEq

/-- Exceptions the pipeline can raise, one constructor per Python
exception kind; valueError carries the two shapes interpolated into
the message string, keyError the missing key. -/
inductive PyError where
  | faceDetection (msg : String)
  | valueError (offending first : ℕ × ℕ)
  | keyError (key : String)
  | indexError
deriving DecidableEq

/-- Python dict access faces[key] on the keyed face list: first
matching key wins; none models the KeyError path. -/
def lookupKey (key : String) : List (String × Face) → Option Face
  | [] => none
  | (k, f) :: rest => if k = key then some f else lookupKey key rest

/-- Arithmetic mean of the two eye landmarks of a face,
np.mean([left_eye, right_eye], axis=0). -/
def midOfFace (f : Face) : ℚ × ℚ :=
  ((f.left_eye.1 + f.right_eye.1) / 2, (f.left_eye.2 + f.right_eye.2) / 2)

/-- Embedding of find_mid_eye, parameterized by the external detector:
zero faces and two-or-more faces raise FaceDetectionError with the
exact messages of the source; otherwise the single face is read
through the fixed key face_1, whose absence is a KeyError. -/
def find_mid_eye {α : Type} (detect : Image α → List (String × Face))
    (img : Image α) : Except PyError (ℚ × ℚ) :=
  let faces := detect img
  if faces.length = 0 then
    .error (.faceDetection "No face detected.")
  else if 2 ≤ faces.length then
    .error (.faceDetection "Too many faces detected.")
  else
    match lookupKey "face_1" faces with
    | none => .error (.keyError "face_1")
    | some f => .ok (midOfFace f)

/-- Shape-validation loop of main: returns the shape of the first
image differing from the reference shape, none when all match. -/
def firstMismatch {α : Type} (s0 : ℕ × ℕ) : List (Image α) → Option (ℕ × ℕ)
  | [] => none
  | img :: rest => if img.shape ≠ s0 then some img.shape else firstMismatch s0 rest

/-- Embedding of the list comprehension [find_mid_eye(img) for img in
imgs]: midpoints are collected in order until the first failure, whose
exception propagates.  The second component is the trace of images
passed to the detector, in call order. -/
def collectMids {α : Type} (detect : Image α → List (String × Face)) :
    List (Image α) → Except PyError (List (ℚ × ℚ)) × List (Image α)
  | [] => (.ok [], [])
  | img :: rest =>
    match find_mid_eye detect img with
    | .error e => (.error e, [img])
    | .ok m =>
      match collectMids detect rest with
      | (.error e, tr) => (.error e, img :: tr)
      | (.ok ms, tr) => (.ok (m :: ms), img :: tr)

/-- Embedding of main, parameterized by the detector.  A batch of at
most one image is returned as a copy; otherwise shapes are validated
against the first image, midpoints are collected, and align_eyes is
applied.  The second component is the trace of detector calls; the
align_eyes none case is unreachable here since the batch is nonempty,
and is mapped to the IndexError that imgs[0] would raise. -/
def main {α : Type} (detect : Image α → List (String × Face))
    (imgs : List (Image α)) :
    Except PyError (List (Image α)) × List (Image α) :=
  match imgs with
  | [] => (.ok [], [])
  | [img] => (.ok [img], [])
  | i0 :: i1 :: rest =>
    match firstMismatch i0.shape (i0 :: i1 :: rest) with
    | some s => (.error (.valueError s i0.shape), [])
    | none =>
      match collectMids detect (i0 :: i1 :: rest) with
      | (.error e, tr) => (.error e, tr)
      | (.ok mids, tr) =>
        match align_eyes (i0 :: i1 :: rest) mids with
        | none => (.error .indexError, tr)
        | some out => (.ok out, tr)

/-! Concrete images, faces, detectors and midpoint batches used to
instantiate the theorems on closed inputs. -/

/-- A 100 x 100 image with all pixels 0. -/
def img100 : Image ℕ := ⟨100, 100, fun _ _ => 0⟩

/-- A 100 x 100 image with all pixels 1, distinguishable from img100
by its content. -/
def imgQ : Image ℕ := ⟨100, 100, fun _ _ => 1⟩

/-- A 10 x 10 image with all pixels 0. -/
def imgU : Image ℕ := ⟨10, 10, fun _ _ => 0⟩

/-- A 10 x 10 image with all pixels 1. -/
def imgV : Image ℕ := ⟨10, 10, fun _ _ => 1⟩

/-- A 20 x 20 image, shape-incompatible with imgU. -/
def imgW : Image ℕ := ⟨20, 20, fun _ _ => 0⟩

/-- A face whose eye midpoint is (4, 6). -/
def face0 : Face := ⟨(2, 4), (6, 8)⟩

/-- A face whose eye midpoint is (0, 0). -/
def faceP : Face := ⟨(0, 0), (0, 0)⟩

/-- A face whose eye midpoint is (1/2, 0), fractional on purpose. -/
def faceQ : Face := ⟨(1/2, 0), (1/2, 0)⟩

/-- A face whose eye midpoint is (13, 0), far outside a 10-wide image. -/
def faceD : Face := ⟨(13, 0), (13, 0)⟩

/-- A detector that finds no face in any image. -/
def detNone : Image ℕ → List (String × Face) := fun _ => []

/-- A detector that finds two faces in every image. -/
def detTwo : Image ℕ → List (String × Face) :=
  fun _ => [("face_1", face0), ("face_2", face0)]

/-- A detector that finds exactly one face, keyed face_1. -/
def detOne : Image ℕ → List (String × Face) := fun _ => [("face_1", face0)]

/-- A detector that finds exactly one face under a key other than
face_1. -/
def detOther : Image ℕ → List (String × Face) := fun _ => [("face_0", face0)]

/-- Face assignment distinguishing images by their first pixel:
all-zero images get faceP, others faceQ. -/
def fsPQ : Image ℕ → Face := fun i => if i.pix 0 0 = 0 then faceP else faceQ

/-- Single-face detector built on fsPQ. -/
def detPQ : Image ℕ → List (String × Face) := fun i => [("face_1", fsPQ i)]

/-- Face assignment sending all-zero images to faceP and others to the
far-out faceD. -/
def fsUV : Image ℕ → Face := fun i => if i.pix 0 0 = 0 then faceP else faceD

/-- Single-face detector built on fsUV. -/
def detUV : Image ℕ → List (String × Face) := fun i => [("face_1", fsUV i)]

/-- The midpoint batch of the concrete three-image scenario. -/
def mids3 : List (ℚ × ℚ) := [(40, 50), (50, 50), (60, 50)]

/-- A midpoint batch with fractional spread 1/2. -/
def midsPQ : List (ℚ × ℚ) := [(0, 0), (1/2, 0)]

/-- A midpoint batch with spread 13, degenerate for 10-wide images. -/
def midsDeg : List (ℚ × ℚ) := [(0, 0), (13, 0)]

/-- A small well-behaved midpoint batch for 10 x 10 images. -/
def midsW : List (ℚ × ℚ) := [(3, 4), (5, 4)]

/-! Arithmetic facts about truncation toward zero. -/

theorem ceil_via_floor (q : ℚ) : ⌈q⌉ = -⌊-q⌋ := by
  rw [← Int.ceil_neg, neg_neg]

theorem truncZ_nonneg {q : ℚ} (h : 0 ≤ q) : 0 ≤ truncZ q := by
  rw [truncZ, if_pos h]
  exact Int.floor_nonneg.mpr h

theorem truncZ_le {q : ℚ} (h : 0 ≤ q) : (truncZ q : ℚ) ≤ q := by
  rw [truncZ, if_pos h]
  exact Int.floor_le q

theorem truncZ_lt_add_one (q : ℚ) : (truncZ q : ℚ) < q + 1 := by
  rw [truncZ]
  split
  · have h := Int.floor_le q
    linarith
  · exact Int.ceil_lt_add_one q

theorem sub_truncZ_nonneg {q : ℚ} (h : 0 ≤ q) : 0 ≤ q - truncZ q := by
  have h2 := truncZ_le h
  linarith

theorem sub_truncZ_lt_one {q : ℚ} (h : 0 ≤ q) : q - truncZ q < 1 := by
  rw [truncZ, if_pos h]
  have h2 := Int.sub_one_lt_floor q
  linarith

theorem truncZ_add_truncZ_le {a b : ℚ} {n : ℕ} (ha : 0 ≤ a)
    (hab : a + b ≤ (n : ℚ)) : truncZ a + truncZ b ≤ (n : ℤ) := by
  have h1 : (truncZ a : ℚ) ≤ a := truncZ_le ha
  have h2 : (truncZ b : ℚ) < b + 1 := truncZ_lt_add_one b
  have h3 : ((truncZ a + truncZ b : ℤ) : ℚ) < ((n : ℤ) : ℚ) + 1 := by
    push_cast
    push_cast at h1 h2
    linarith
  have h4 : (truncZ a + truncZ b : ℤ) < (n : ℤ) + 1 := by exact_mod_cast h3
  omega

theorem truncZ_natCast (n : ℕ) : truncZ (n : ℚ) = n := by
  rw [truncZ, if_pos (Nat.cast_nonneg n)]
  exact Int.floor_natCast n

/-! Facts about the columnwise fold that embeds numpy max and min. -/

theorem le_foldl_max (xs : List ℚ) : ∀ a : ℚ, a ≤ xs.foldl max a := by
  induction xs with
  | nil => intro a; exact le_refl a
  | cons x xs ih =>
    intro a
    exact le_trans (le_max_left a x) (ih (max a x))

theorem mem_le_foldl_max {x : ℚ} {xs : List ℚ} (h : x ∈ xs) :
    ∀ a : ℚ, x ≤ xs.foldl max a := by
  induction xs with
  | nil => cases h
  | cons y ys ih =>
    intro a
    rcases List.mem_cons.mp h with rfl | hmem
    · exact le_trans (le_max_right a x) (le_foldl_max ys (max a x))
    · exact ih hmem (max a y)

theorem foldl_max_mem (xs : List ℚ) :
    ∀ a : ℚ, xs.foldl max a = a ∨ xs.foldl max a ∈ xs := by
  induction xs with
  | nil => intro a; exact Or.inl rfl
  | cons y ys ih =>
    intro a
    rw [List.foldl_cons]
    rcases ih (max a y) with h | h
    · rcases max_choice a y with h2 | h2
      · exact Or.inl (by rw [h, h2])
      · exact Or.inr (by rw [h, h2]; exact List.mem_cons_self y ys)
    · exact Or.inr (List.mem_cons_of_mem y h)

theorem le_listMax {x : ℚ} {l : List ℚ} (h : x ∈ l) : x ≤ listMax l := by
  cases l with
  | nil => cases h
  | cons y ys =>
    rcases List.mem_cons.mp h with rfl | hmem
    · exact le_foldl_max ys x
    · exact mem_le_foldl_max hmem y

theorem listMax_mem {l : List ℚ} (h : l ≠ []) : listMax l ∈ l := by
  cases l with
  | nil => exact absurd rfl h
  | cons y ys =>
    rcases foldl_max_mem ys y with h2 | h2
    · rw [listMax, h2]; exact List.mem_cons_self y ys
    · rw [listMax]; exact List.mem_cons_of_mem y h2

theorem foldl_min_le (xs : List ℚ) : ∀ a : ℚ, xs.foldl min a ≤ a := by
  induction xs with
  | nil => intro a; exact le_refl a
  | cons x xs ih =>
    intro a
    exact le_trans (ih (min a x)) (min_le_left a x)

theorem foldl_min_le_mem {x : ℚ} {xs : List ℚ} (h : x ∈ xs) :
    ∀ a : ℚ, xs.foldl min a ≤ x := by
  induction xs with
  | nil => cases h
  | cons y ys ih =>
    intro a
    rcases List.mem_cons.mp h with rfl | hmem
    · exact le_trans (foldl_min_le ys (min a x)) (min_le_right a x)
    · exact ih hmem (min a y)

theorem foldl_min_mem (xs : List ℚ) :
    ∀ a : ℚ, xs.foldl min a = a ∨ xs.foldl min a ∈ xs := by
  induction xs with
  | nil => intro a; exact Or.inl rfl
  | cons y ys ih =>
    intro a
    rw [List.foldl_cons]
    rcases ih (min a y) with h | h
    · rcases min_choice a y with h2 | h2
      · exact Or.inl (by rw [h, h2])
      · exact Or.inr (by rw [h, h2]; exact List.mem_cons_self y ys)
    · exact Or.inr (List.mem_cons_of_mem y h)

theorem listMin_le {x : ℚ} {l : List ℚ} (h : x ∈ l) : listMin l ≤ x := by
  cases l with
  | nil => cases h
  | cons y ys =>
    rcases List.mem_cons.mp h with rfl | hmem
    · exact foldl_min_le ys x
    · exact foldl_min_le_mem hmem y

theorem listMin_mem {l : List ℚ} (h : l ≠ []) : listMin l ∈ l := by
  cases l with
  | nil => exact absurd rfl h
  | cons y ys =>
    rcases foldl_min_mem ys y with h2 | h2
    · rw [listMin, h2]; exact List.mem_cons_self y ys
    · rw [listMin]; exact List.mem_cons_of_mem y h2

/-! Bounds linking shifts, crop origins and the shared crop size. -/

theorem shifts_length (mids : List (ℚ × ℚ)) : (shifts mids).length = mids.length :=
  List.length_map mids (shiftOf mids)

theorem shift_le_bound_low {mids : List (ℚ × ℚ)} {s : ℚ × ℚ} (hs : s ∈ shifts mids) :
    s.1 ≤ (bound_low mids).1 ∧ s.2 ≤ (bound_low mids).2 :=
  ⟨le_listMax (List.mem_map_of_mem Prod.fst hs),
   le_listMax (List.mem_map_of_mem Prod.snd hs)⟩

theorem minShift_le_shift {mids : List (ℚ × ℚ)} {s : ℚ × ℚ} (hs : s ∈ shifts mids) :
    (minShift mids).1 ≤ s.1 ∧ (minShift mids).2 ≤ s.2 :=
  ⟨listMin_le (List.mem_map_of_mem Prod.fst hs),
   listMin_le (List.mem_map_of_mem Prod.snd hs)⟩

theorem origin_nonneg {mids : List (ℚ × ℚ)} {s : ℚ × ℚ} (hs : s ∈ shifts mids) :
    0 ≤ (originOfShift (bound_low mids) s).1 ∧
      0 ≤ (originOfShift (bound_low mids) s).2 := by
  obtain ⟨h1, h2⟩ := shift_le_bound_low hs
  exact ⟨truncZ_nonneg (by linarith), truncZ_nonneg (by linarith)⟩

theorem origin_add_size_le {mids : List (ℚ × ℚ)} (w h : ℕ) {s : ℚ × ℚ}
    (hs : s ∈ shifts mids) :
    (originOfShift (bound_low mids) s).1 + (bound_low_to_high w h mids).1 ≤ (w : ℤ) ∧
      (originOfShift (bound_low mids) s).2 + (bound_low_to_high w h mids).2 ≤ (h : ℤ) := by
  obtain ⟨hb1, hb2⟩ := shift_le_bound_low hs
  obtain ⟨hm1, hm2⟩ := minShift_le_shift hs
  constructor
  · exact truncZ_add_truncZ_le (by linarith) (by linarith)
  · exact truncZ_add_truncZ_le (by linarith) (by linarith)

/-! Facts about Python slicing and the crop view. -/

theorem sliceIdx_eq_toNat {n : ℕ} {v : ℤ} (h0 : 0 ≤ v) (hn : v ≤ (n : ℤ)) :
    sliceIdx n v = v.toNat := by
  rw [sliceIdx, if_neg (by omega)]
  omega

theorem crop_height_eq {α : Type} (img : Image α) {ylo t : ℤ} (xlo xhi : ℤ)
    (h0 : 0 ≤ ylo) (ht : 0 ≤ t) (hle : ylo + t ≤ (img.height : ℤ)) :
    (crop img ylo (ylo + t) xlo xhi).height = t.toNat := by
  show sliceIdx img.height (ylo + t) - sliceIdx img.height ylo = t.toNat
  rw [sliceIdx_eq_toNat (by omega) hle, sliceIdx_eq_toNat h0 (by omega)]
  omega

theorem crop_width_eq {α : Type} (img : Image α) (ylo yhi : ℤ) {xlo t : ℤ}
    (h0 : 0 ≤ xlo) (ht : 0 ≤ t) (hle : xlo + t ≤ (img.width : ℤ)) :
    (crop img ylo yhi xlo (xlo + t)).width = t.toNat := by
  show sliceIdx img.width (xlo + t) - sliceIdx img.width xlo = t.toNat
  rw [sliceIdx_eq_toNat (by omega) hle, sliceIdx_eq_toNat h0 (by omega)]
  omega

theorem crop_pix_eq {α : Type} (img : Image α) {ylo xlo : ℤ} (yhi xhi : ℤ) (r c : ℕ)
    (hy0 : 0 ≤ ylo) (hyn : ylo ≤ (img.height : ℤ))
    (hx0 : 0 ≤ xlo) (hxn : xlo ≤ (img.width : ℤ)) :
    (crop img ylo yhi xlo xhi).pix r c = img.pix (ylo.toNat + r) (xlo.toNat + c) := by
  show img.pix (sliceIdx img.height ylo + r) (sliceIdx img.width xlo + c) = _
  rw [sliceIdx_eq_toNat hy0 hyn, sliceIdx_eq_toNat hx0 hxn]

theorem crop_full {α : Type} (img : Image α) :
    crop img 0 (img.height : ℤ) 0 (img.width : ℤ) = img := by
  have h0h : sliceIdx img.height 0 = 0 := by
    rw [sliceIdx_eq_toNat (le_refl 0) (by omega)]; rfl
  have h0w : sliceIdx img.width 0 = 0 := by
    rw [sliceIdx_eq_toNat (le_refl 0) (by omega)]; rfl
  have hhh : sliceIdx img.height (img.height : ℤ) = img.height := by
    rw [sliceIdx_eq_toNat (by omega) (le_refl _)]; omega
  have hww : sliceIdx img.width (img.width : ℤ) = img.width := by
    rw [sliceIdx_eq_toNat (by omega) (le_refl _)]; omega
  apply Image.ext
  · show sliceIdx img.height (img.height : ℤ) - sliceIdx img.height 0 = img.height
    omega
  · show sliceIdx img.width (img.width : ℤ) - sliceIdx img.width 0 = img.width
    omega
  · funext r c
    show img.pix (sliceIdx img.height 0 + r) (sliceIdx img.width 0 + c) = img.pix r c
    rw [h0h, h0w]
    simp

/-! Facts about the orchestration helpers. -/

theorem firstMismatch_none {α : Type} {s0 : ℕ × ℕ} {l : List (Image α)}
    (h : ∀ i ∈ l, i.shape = s0) : firstMismatch s0 l = none := by
  induction l with
  | nil => rfl
  | cons i rest ih =>
    rw [firstMismatch, if_neg (by simp [h i (List.mem_cons_self i rest)])]
    exact ih fun j hj => h j (List.mem_cons_of_mem i hj)

theorem firstMismatch_some {α : Type} {s0 : ℕ × ℕ} {l : List (Image α)}
    (h : ∃ i ∈ l, i.shape ≠ s0) :
    ∃ s, firstMismatch s0 l = some s ∧ s ≠ s0 := by
  induction l with
  | nil => simp at h
  | cons i rest ih =>
    by_cases hc : i.shape ≠ s0
    · exact ⟨i.shape, by rw [firstMismatch, if_pos hc], hc⟩
    · obtain ⟨j, hj, hne⟩ := h
      rcases List.mem_cons.mp hj with rfl | hmem
      · exact absurd hne hc
      · obtain ⟨s, hs, hsne⟩ := ih ⟨j, hmem, hne⟩
        exact ⟨s, by rw [firstMismatch, if_neg hc]; exact hs, hsne⟩

theorem find_mid_eye_single {α : Type} (detect : Image α → List (String × Face))
    (img : Image α) (f : Face) (hdet : detect img = [("face_1", f)]) :
    find_mid_eye detect img = .ok (midOfFace f) := by
  rw [find_mid_eye]
  simp [hdet, lookupKey]

theorem collectMids_ok {α : Type} (detect : Image α → List (String × Face))
    (fs : Image α → Face) :
    ∀ l : List (Image α), (∀ i ∈ l, detect i = [("face_1", fs i)]) →
      collectMids detect l = (.ok (l.map fun i => midOfFace (fs i)), l) := by
  intro l
  induction l with
  | nil => intro _; rfl
  | cons i rest ih =>
    intro h
    rw [collectMids, find_mid_eye_single detect i (fs i) (h i (List.mem_cons_self i rest)),
      ih fun j hj => h j (List.mem_cons_of_mem i hj)]
    simp

theorem zip_replicate_map {α β γ : Type} (f : α × β → γ) (c : β) :
    ∀ l : List α, (l.zip (List.replicate l.length c)).map f = l.map fun x => f (x, c) := by
  intro l
  induction l with
  | nil => rfl
  | cons x xs ih => simp only [List.length_cons, List.replicate_succ, List.zip_cons_cons,
      List.map_cons, ih]

theorem align_eyes_length {α : Type} (i0 : Image α) (rest : List (Image α))
    (mids : List (ℚ × ℚ)) (out : List (Image α))
    (hout : align_eyes (i0 :: rest) mids = some out)
    (hlen : mids.length = (i0 :: rest).length) :
    out.length = (i0 :: rest).length := by
  rw [align_eyes] at hout
  obtain rfl := Option.some.inj hout
  rw [List.length_map, List.length_zip, shifts_length, hlen]
  exact min_self _

theorem align_eyes_getElem {α : Type} (i0 : Image α) (rest : List (Image α))
    (mids : List (ℚ × ℚ)) (out : List (Image α))
    (hout : align_eyes (i0 :: rest) mids = some out)
    (k : ℕ) (hk : k < out.length) (hk2 : k < (i0 :: rest).length)
    (hk3 : k < (shifts mids).length) :
    out.get ⟨k, hk⟩ = crop ((i0 :: rest).get ⟨k, hk2⟩)
      (originOfShift (bound_low mids) ((shifts mids).get ⟨k, hk3⟩)).2
      ((originOfShift (bound_low mids) ((shifts mids).get ⟨k, hk3⟩)).2 +
        (bound_low_to_high i0.width i0.height mids).2)
      (originOfShift (bound_low mids) ((shifts mids).get ⟨k, hk3⟩)).1
      ((originOfShift (bound_low mids) ((shifts mids).get ⟨k, hk3⟩)).1 +
        (bound_low_to_high i0.width i0.height mids).1) := by
  rw [align_eyes] at hout
  obtain rfl := Option.some.inj hout
  simp only [List.get_eq_getElem, List.getElem_map, List.getElem_zip]

/-! Closed-form evaluations of the crop arithmetic on the concrete
midpoint batches. -/

theorem truncZ_zero : truncZ 0 = 0 := by
  rw [truncZ, if_pos (le_refl 0)]
  exact Int.floor_zero

theorem shifts_mids3 : shifts mids3 = [(10, 0), (0, 0), (-10, 0)] := by
  norm_num [shifts, shiftOf, meanP, mids3]

theorem bound_low_mids3 : bound_low mids3 = (10, 0) := by
  simp only [bound_low, shifts_mids3]
  norm_num [listMax]

theorem minShift_mids3 : minShift mids3 = (-10, 0) := by
  simp only [minShift, shifts_mids3]
  norm_num [listMin]

theorem blt_mids3 : bound_low_to_high 100 100 mids3 = (80, 100) := by
  simp only [bound_low_to_high, bound_low_mids3, minShift_mids3]
  norm_num [truncZ]

theorem origins_mids3 : origins mids3 = [(0, 0), (10, 0), (20, 0)] := by
  simp only [origins, shifts_mids3, bound_low_mids3, List.map_cons, List.map_nil,
    originOfShift]
  norm_num [truncZ]

theorem shifts_midsPQ : shifts midsPQ = [(1/4, 0), (-1/4, 0)] := by
  norm_num [shifts, shiftOf, meanP, midsPQ]

theorem bound_low_midsPQ : bound_low midsPQ = (1/4, 0) := by
  simp only [bound_low, shifts_midsPQ]
  norm_num [listMax]

theorem minShift_midsPQ : minShift midsPQ = (-1/4, 0) := by
  simp only [minShift, shifts_midsPQ]
  norm_num [listMin]

theorem blt_midsPQ : bound_low_to_high 100 100 midsPQ = (99, 100) := by
  simp only [bound_low_to_high, bound_low_midsPQ, minShift_midsPQ]
  norm_num [truncZ]

theorem origins_midsPQ : origins midsPQ = [(0, 0), (0, 0)] := by
  simp only [origins, shifts_midsPQ, bound_low_midsPQ, List.map_cons, List.map_nil,
    originOfShift]
  norm_num [truncZ]

theorem shifts_midsDeg : shifts midsDeg = [(13/2, 0), (-13/2, 0)] := by
  norm_num [shifts, shiftOf, meanP, midsDeg]

theorem bound_low_midsDeg : bound_low midsDeg = (13/2, 0) := by
  simp only [bound_low, shifts_midsDeg]
  norm_num [listMax]

theorem minShift_midsDeg : minShift midsDeg = (-13/2, 0) := by
  simp only [minShift, shifts_midsDeg]
  norm_num [listMin]

theorem blt_midsDeg : bound_low_to_high 10 10 midsDeg = (-3, 10) := by
  simp only [bound_low_to_high, bound_low_midsDeg, minShift_midsDeg]
  norm_num [truncZ, ceil_via_floor]

theorem origins_midsDeg : origins midsDeg = [(0, 0), (13, 0)] := by
  simp only [origins, shifts_midsDeg, bound_low_midsDeg, List.map_cons, List.map_nil,
    originOfShift]
  norm_num [truncZ]

theorem shifts_midsW : shifts midsW = [(1, 0), (-1, 0)] := by
  norm_num [shifts, shiftOf, meanP, midsW]

theorem bound_low_midsW : bound_low midsW = (1, 0) := by
  simp only [bound_low, shifts_midsW]
  norm_num [listMax]

theorem minShift_midsW : minShift midsW = (-1, 0) := by
  simp only [minShift, shifts_midsW]
  norm_num [listMin]

theorem blt_midsW : bound_low_to_high 10 10 midsW = (8, 10) := by
  simp only [bound_low_to_high, bound_low_midsW, minShift_midsW]
  norm_num [truncZ]

/-- C5: for every input collection of 0 or 1 images, main returns a
copy of the input unchanged (the very same list, hence the same length
and shape- and value-identical images) and the detector-call trace is
empty, so the face detector is never invoked. -/
theorem main_small_batch_copy {α : Type} (detect : Image α → List (String × Face))
    (imgs : List (Image α)) (h : imgs.length ≤ 1) :
    main detect imgs = (.ok imgs, []) := by
  match imgs with
  | [] => rfl
  | [i] => rfl
  | i0 :: i1 :: rest =>
    exfalso
    simp only [List.length_cons] at h
    omega

/-- C5 witness: the singleton batch over imgU is returned unchanged
with no detector call. -/
theorem main_small_batch_copy_witness :
    ([imgU] : List (Image ℕ)).length ≤ 1 ∧
      main detNone [imgU] = (.ok [imgU], []) :=
  ⟨by decide, main_small_batch_copy detNone [imgU] (by decide)⟩

/-- C6: for every batch of 2 or more images containing an image whose
shape differs from the first image's shape, main fails with a
ValueError carrying both conflicting shapes, and the detector-call
trace is empty, so the failure happens before any detection work. -/
theorem main_shape_mismatch_fails_fast {α : Type}
    (detect : Image α → List (String × Face)) (i0 i1 : Image α)
    (rest : List (Image α)) (hlen : 2 ≤ (i0 :: i1 :: rest).length)
    (h : ∃ i ∈ i0 :: i1 :: rest, i.shape ≠ i0.shape) :
    ∃ s, main detect (i0 :: i1 :: rest) = (.error (.valueError s i0.shape), []) ∧
      s ≠ i0.shape := by
  obtain ⟨s, hs, hsne⟩ := firstMismatch_some h
  refine ⟨s, ?_, hsne⟩
  simp only [main, hs]

/-- C6 witness: a batch mixing a 10 x 10 and a 20 x 20 image fails
with the shape error and an empty detector trace. -/
theorem main_shape_mismatch_fails_fast_witness :
    2 ≤ ([imgU, imgW] : List (Image ℕ)).length ∧
      ∃ s, main detOne [imgU, imgW] = (.error (.valueError s imgU.shape), []) ∧
        s ≠ imgU.shape :=
  ⟨by decide, main_shape_mismatch_fails_fast detOne imgU imgW [] (by decide) (by decide)⟩

/-- C7 counterexample: the claim states the zero-face message is
exactly "no face detected", but the code raises the message "No face
detected." (capitalized, with a final period), so the claim as stated
fails on any image on which the detector finds no face. -/
theorem find_mid_eye_message_cex :
    find_mid_eye detNone imgU = .error (.faceDetection "No face detected.") ∧
      "No face detected." ≠ "no face detected" := by
  exact ⟨rfl, by decide⟩

/-- C7 (amended): find_mid_eye raises FaceDetectionError with message
"No face detected." when the detector returns zero faces, raises
FaceDetectionError with message "Too many faces detected." when it
returns two or more faces, and when it returns exactly one face whose
key lookup under face_1 succeeds returns the arithmetic mean of the
left-eye and right-eye landmarks; FaceDetectionError is raised in no
other case. -/
theorem find_mid_eye_trichotomy {α : Type}
    (detect : Image α → List (String × Face)) (img : Image α) :
    ((detect img).length = 0 →
      find_mid_eye detect img = .error (.faceDetection "No face detected.")) ∧
    (2 ≤ (detect img).length →
      find_mid_eye detect img = .error (.faceDetection "Too many faces detected.")) ∧
    (∀ f : Face, (detect img).length = 1 → lookupKey "face_1" (detect img) = some f →
      find_mid_eye detect img = .ok (midOfFace f)) ∧
    (∀ msg : String, find_mid_eye detect img = .error (.faceDetection msg) →
      (detect img).length = 0 ∨ 2 ≤ (detect img).length) := by
  refine ⟨?_, ?_, ?_, ?_⟩
  · intro h
    simp only [find_mid_eye]
    rw [if_pos h]
  · intro h
    simp only [find_mid_eye]
    rw [if_neg (by omega), if_pos h]
  · intro f h1 h2
    simp only [find_mid_eye]
    rw [if_neg (by omega), if_neg (by omega), h2]
  · intro msg h
    by_contra hc
    push_neg at hc
    obtain ⟨h0, h2⟩ := hc
    simp only [find_mid_eye] at h
    rw [if_neg h0, if_neg (by omega)] at h
    cases hl : lookupKey "face_1" (detect img) with
    | none => rw [hl] at h; exact absurd h (by simp)
    | some f => rw [hl] at h; exact absurd h (by simp)

/-- C7 witness: the three branches of the amended trichotomy at
concrete detectors. -/
theorem find_mid_eye_trichotomy_witness :
    find_mid_eye detNone imgU = .error (.faceDetection "No face detected.") ∧
    find_mid_eye detTwo imgU = .error (.faceDetection "Too many faces detected.") ∧
    find_mid_eye detOne imgU = .ok (midOfFace face0) :=
  ⟨(find_mid_eye_trichotomy detNone imgU).1 rfl,
   (find_mid_eye_trichotomy detTwo imgU).2.1 (by decide),
   (find_mid_eye_trichotomy detOne imgU).2.2.1 face0 rfl rfl⟩

/-- C10: when the detector reports exactly one face, find_mid_eye
succeeds precisely when that face's identifier is the fixed key
face_1; under any other identifier the dictionary lookup fails with a
KeyError on face_1 instead of returning a midpoint. -/
theorem find_mid_eye_face1_key_only {α : Type}
    (detect : Image α → List (String × Face)) (img : Image α)
    (k : String) (f : Face) (hdet : detect img = [(k, f)]) :
    ((∃ p, find_mid_eye detect img = .ok p) ↔ k = "face_1") ∧
    (k ≠ "face_1" → find_mid_eye detect img = .error (.keyError "face_1")) := by
  have hlen0 : ¬((detect img).length = 0) := by rw [hdet]; simp
  have hlen2 : ¬(2 ≤ (detect img).length) := by rw [hdet]; simp
  constructor
  · constructor
    · rintro ⟨p, hp⟩
      simp only [find_mid_eye] at hp
      rw [if_neg hlen0, if_neg hlen2, hdet] at hp
      by_contra hk
      simp only [lookupKey, if_neg hk] at hp
      exact absurd hp (by simp)
    · intro hk
      refine ⟨midOfFace f, ?_⟩
      exact find_mid_eye_single detect img f (by rw [hdet, hk])
  · intro hk
    simp only [find_mid_eye]
    rw [if_neg hlen0, if_neg hlen2, hdet]
    simp only [lookupKey, if_neg hk]

/-- C10 witness: a single face keyed face_0 makes find_mid_eye fail
with the KeyError on face_1. -/
theorem find_mid_eye_face1_key_only_witness :
    ((∃ p, find_mid_eye detOther imgU = .ok p) ↔ "face_0" = "face_1") ∧
    ("face_0" ≠ "face_1" →
      find_mid_eye detOther imgU = .error (.keyError "face_1")) :=
  find_mid_eye_face1_key_only detOther imgU "face_0" face0 rfl

/-- C2: for every nonempty batch of same-shaped images, every
per-image crop rectangle computed by the align_eyes arithmetic
satisfies the invariant: both offsets are nonnegative and offset plus
shared size stays within the image bounds in both axes — including
batches whose shared size is negative. -/
theorem crop_rectangle_invariant {α : Type} (i0 : Image α) (rest : List (Image α))
    (mids : List (ℚ × ℚ))
    (hsh : ∀ i ∈ i0 :: rest, i.shape = i0.shape) :
    ∀ p ∈ (i0 :: rest).zip (shifts mids),
      0 ≤ (originOfShift (bound_low mids) p.2).1 ∧
      0 ≤ (originOfShift (bound_low mids) p.2).2 ∧
      (originOfShift (bound_low mids) p.2).1 +
        (bound_low_to_high i0.width i0.height mids).1 ≤ (p.1.width : ℤ) ∧
      (originOfShift (bound_low mids) p.2).2 +
        (bound_low_to_high i0.width i0.height mids).2 ≤ (p.1.height : ℤ) := by
  rintro ⟨img, s⟩ hp
  obtain ⟨him, hs⟩ := List.of_mem_zip hp
  have hshape := hsh img him
  have hh : img.height = i0.height := congrArg Prod.fst hshape
  have hw : img.width = i0.width := congrArg Prod.snd hshape
  obtain ⟨h1, h2⟩ := origin_nonneg hs
  obtain ⟨h3, h4⟩ := origin_add_size_le i0.width i0.height hs
  exact ⟨h1, h2, by rw [hw]; exact h3, by rw [hh]; exact h4⟩

/-- C2 witness: the invariant instantiated on a concrete two-image
batch. -/
theorem crop_rectangle_invariant_witness :
    (∀ i ∈ ([imgU, imgV] : List (Image ℕ)), i.shape = imgU.shape) ∧
    ∀ p ∈ ([imgU, imgV] : List (Image ℕ)).zip (shifts midsW),
      0 ≤ (originOfShift (bound_low midsW) p.2).1 ∧
      0 ≤ (originOfShift (bound_low midsW) p.2).2 ∧
      (originOfShift (bound_low midsW) p.2).1 +
        (bound_low_to_high imgU.width imgU.height midsW).1 ≤ (p.1.width : ℤ) ∧
      (originOfShift (bound_low midsW) p.2).2 +
        (bound_low_to_high imgU.width imgU.height midsW).2 ≤ (p.1.height : ℤ) :=
  ⟨by decide, crop_rectangle_invariant imgU [imgV] midsW (by decide)⟩

/-- C9: for every nonempty batch whose computed crop size is
non-positive in some dimension, align_eyes raises no error: it still
returns one crop per image, and in a degenerate dimension every
image's slice has its high bound at or below its low bound — an empty
or invalid slice, with no guard or clamping. -/
theorem align_eyes_degenerate_no_guard {α : Type} (i0 : Image α)
    (rest : List (Image α)) (mids : List (ℚ × ℚ))
    (hlen : mids.length = (i0 :: rest).length)
    (hdeg : (bound_low_to_high i0.width i0.height mids).1 ≤ 0 ∨
      (bound_low_to_high i0.width i0.height mids).2 ≤ 0) :
    ∃ out, align_eyes (i0 :: rest) mids = some out ∧
      out.length = (i0 :: rest).length ∧
      ∀ s ∈ shifts mids,
        (originOfShift (bound_low mids) s).1 +
            (bound_low_to_high i0.width i0.height mids).1 ≤
            (originOfShift (bound_low mids) s).1 ∨
          (originOfShift (bound_low mids) s).2 +
            (bound_low_to_high i0.width i0.height mids).2 ≤
            (originOfShift (bound_low mids) s).2 := by
  refine ⟨_, rfl, align_eyes_length i0 rest mids _ rfl hlen, ?_⟩
  intro s _
  rcases hdeg with h | h
  · exact Or.inl (by omega)
  · exact Or.inr (by omega)

/-- C9 witness: a 10 x 10 batch with midpoint spread 13 has computed
crop width -3, and align_eyes still returns a full-length result of
degenerate slices. -/
theorem align_eyes_degenerate_no_guard_witness :
    midsDeg.length = ([imgU, imgV] : List (Image ℕ)).length ∧
    ∃ out, align_eyes [imgU, imgV] midsDeg = some out ∧
      out.length = ([imgU, imgV] : List (Image ℕ)).length ∧
      ∀ s ∈ shifts midsDeg,
        (originOfShift (bound_low midsDeg) s).1 +
            (bound_low_to_high imgU.width imgU.height midsDeg).1 ≤
            (originOfShift (bound_low midsDeg) s).1 ∨
          (originOfShift (bound_low midsDeg) s).2 +
            (bound_low_to_high imgU.width imgU.height midsDeg).2 ≤
            (originOfShift (bound_low midsDeg) s).2 :=
  ⟨by decide, align_eyes_degenerate_no_guard imgU [imgV] midsDeg (by decide)
    (Or.inl (by show (bound_low_to_high 10 10 midsDeg).1 ≤ 0; rw [blt_midsDeg]; decide))⟩

/-- C3: on the concrete batch of three 100 x 100 images with
midpoints (40,50), (50,50), (60,50), align_eyes computes reference
midpoint (50,50), shifts (10,0), (0,0), (-10,0), bound_low (10,0),
shared crop size (80,100), crop origins (0,0), (10,0), (20,0), every
output is 80 wide and 100 high, and each image's midpoint sits at
x-offset 40 inside its crop. -/
theorem concrete_scenario_three_images :
    meanP mids3 = (50, 50) ∧
    shifts mids3 = [(10, 0), (0, 0), (-10, 0)] ∧
    bound_low mids3 = (10, 0) ∧
    bound_low_to_high 100 100 mids3 = (80, 100) ∧
    origins mids3 = [(0, 0), (10, 0), (20, 0)] ∧
    (align_eyes [img100, img100, img100] mids3).map
        (List.map fun i => (i.height, i.width)) =
      some [(100, 80), (100, 80), (100, 80)] ∧
    (List.zipWith (fun (m : ℚ × ℚ) (o : ℤ × ℤ) => m.1 - (o.1 : ℚ))
        mids3 (origins mids3)) = [40, 40, 40] := by
  refine ⟨by norm_num [meanP, mids3], shifts_mids3, bound_low_mids3, blt_mids3,
    origins_mids3, ?_, ?_⟩
  · simp only [align_eyes, shifts_mids3]
    simp only [List.zip, List.zipWith, List.map_cons, List.map_nil]
    simp only [bound_low_mids3, originOfShift]
    norm_num [truncZ, crop, sliceIdx, img100, bound_low_to_high, minShift_mids3,
      bound_low_mids3, listMin, listMax]
    decide
  · rw [origins_mids3]
    norm_num [mids3]

/-! Facts about batches whose midpoints all coincide. -/

theorem meanP_replicate {n : ℕ} (hn : n ≠ 0) (m0 : ℚ × ℚ) :
    meanP (List.replicate n m0) = m0 := by
  simp only [meanP, List.map_replicate, List.sum_replicate, List.length_replicate,
    nsmul_eq_mul]
  have h1 : (n : ℚ) * m0.1 / n = m0.1 :=
    mul_div_cancel_left₀ _ (Nat.cast_ne_zero.mpr hn)
  have h2 : (n : ℚ) * m0.2 / n = m0.2 :=
    mul_div_cancel_left₀ _ (Nat.cast_ne_zero.mpr hn)
  rw [h1, h2]

theorem meanP_all_eq {mids : List (ℚ × ℚ)} {m0 : ℚ × ℚ} (hne : mids ≠ [])
    (hall : ∀ m ∈ mids, m = m0) : meanP mids = m0 := by
  have hrep : mids = List.replicate mids.length m0 := List.eq_replicate_iff.mpr ⟨rfl, hall⟩
  have hn : mids.length ≠ 0 := fun hc => hne (List.length_eq_zero.mp hc)
  calc meanP mids = meanP (List.replicate mids.length m0) := by rw [← hrep]
    _ = m0 := meanP_replicate hn m0

theorem shifts_all_eq {mids : List (ℚ × ℚ)} {m0 : ℚ × ℚ} (hne : mids ≠ [])
    (hall : ∀ m ∈ mids, m = m0) :
    shifts mids = List.replicate mids.length (0, 0) := by
  have hm := meanP_all_eq hne hall
  rw [shifts]
  apply List.eq_replicate_iff.mpr
  refine ⟨List.length_map _ _, ?_⟩
  intro b hb
  obtain ⟨m, hmem, rfl⟩ := List.mem_map.mp hb
  rw [shiftOf, hm, hall m hmem]
  simp

theorem listMax_replicate_zero {n : ℕ} (hn : n ≠ 0) :
    listMax (List.replicate n (0 : ℚ)) = 0 :=
  List.eq_of_mem_replicate
    (listMax_mem (List.length_pos.mp (by simp [Nat.pos_of_ne_zero hn])))

theorem listMin_replicate_zero {n : ℕ} (hn : n ≠ 0) :
    listMin (List.replicate n (0 : ℚ)) = 0 :=
  List.eq_of_mem_replicate
    (listMin_mem (List.length_pos.mp (by simp [Nat.pos_of_ne_zero hn])))

theorem bound_low_all_eq {mids : List (ℚ × ℚ)} {m0 : ℚ × ℚ} (hne : mids ≠ [])
    (hall : ∀ m ∈ mids, m = m0) : bound_low mids = (0, 0) := by
  have hn : mids.length ≠ 0 := fun hc => hne (List.length_eq_zero.mp hc)
  rw [bound_low, shifts_all_eq hne hall]
  simp only [List.map_replicate]
  rw [listMax_replicate_zero hn]

theorem minShift_all_eq {mids : List (ℚ × ℚ)} {m0 : ℚ × ℚ} (hne : mids ≠ [])
    (hall : ∀ m ∈ mids, m = m0) : minShift mids = (0, 0) := by
  have hn : mids.length ≠ 0 := fun hc => hne (List.length_eq_zero.mp hc)
  rw [minShift, shifts_all_eq hne hall]
  simp only [List.map_replicate]
  rw [listMin_replicate_zero hn]

theorem blt_all_eq (w h : ℕ) {mids : List (ℚ × ℚ)} {m0 : ℚ × ℚ} (hne : mids ≠ [])
    (hall : ∀ m ∈ mids, m = m0) :
    bound_low_to_high w h mids = ((w : ℤ), (h : ℤ)) := by
  rw [bound_low_to_high, bound_low_all_eq hne hall, minShift_all_eq hne hall]
  simp only [add_zero, sub_zero]
  rw [truncZ_natCast, truncZ_natCast]

theorem origins_all_eq {mids : List (ℚ × ℚ)} {m0 : ℚ × ℚ} (hne : mids ≠ [])
    (hall : ∀ m ∈ mids, m = m0) :
    origins mids = List.replicate mids.length (0, 0) := by
  rw [origins, shifts_all_eq hne hall, bound_low_all_eq hne hall]
  simp only [List.map_replicate]
  simp [originOfShift, truncZ_zero]

/-- C4: for every nonempty batch of same-shaped images whose eye
midpoints all coincide, every computed shift is the zero vector, the
crop rectangle is the full image (all origins (0,0) and shared size
equal to the image dimensions), and align_eyes returns every input
image unchanged. -/
theorem identical_midpoints_identity {α : Type} (i0 : Image α)
    (rest : List (Image α)) (mids : List (ℚ × ℚ)) (m0 : ℚ × ℚ)
    (hlen : mids.length = (i0 :: rest).length)
    (hall : ∀ m ∈ mids, m = m0)
    (hsh : ∀ i ∈ i0 :: rest, i.shape = i0.shape) :
    (∀ s ∈ shifts mids, s = (0, 0)) ∧
    bound_low_to_high i0.width i0.height mids = ((i0.width : ℤ), (i0.height : ℤ)) ∧
    (∀ o ∈ origins mids, o = (0, 0)) ∧
    align_eyes (i0 :: rest) mids = some (i0 :: rest) := by
  have hne : mids ≠ [] := by
    intro hc
    rw [hc] at hlen
    simp at hlen
  refine ⟨?_, blt_all_eq i0.width i0.height hne hall, ?_, ?_⟩
  · intro s hs
    rw [shifts_all_eq hne hall] at hs
    exact List.eq_of_mem_replicate hs
  · intro o ho
    rw [origins_all_eq hne hall] at ho
    exact List.eq_of_mem_replicate ho
  · simp only [align_eyes, shifts_all_eq hne hall, hlen,
      bound_low_all_eq hne hall, blt_all_eq i0.width i0.height hne hall,
      Option.some.injEq]
    rw [zip_replicate_map]
    conv_rhs => rw [← List.map_id (i0 :: rest)]
    apply List.map_congr_left
    intro i him
    have hshape := hsh i him
    have hh : i.height = i0.height := congrArg Prod.fst hshape
    have hw : i.width = i0.width := congrArg Prod.snd hshape
    simp only [originOfShift, sub_zero, truncZ_zero, zero_add, id]
    rw [← hh, ← hw]
    exact crop_full i

/-- C4 witness: a two-image batch with both midpoints (3, 7) is
returned unchanged with zero shifts and a full-image crop
rectangle. -/
theorem identical_midpoints_identity_witness :
    (∀ s ∈ shifts [((3 : ℚ), (7 : ℚ)), (3, 7)], s = (0, 0)) ∧
    bound_low_to_high imgU.width imgU.height [((3 : ℚ), (7 : ℚ)), (3, 7)] =
      ((imgU.width : ℤ), (imgU.height : ℤ)) ∧
    (∀ o ∈ origins [((3 : ℚ), (7 : ℚ)), (3, 7)], o = (0, 0)) ∧
    align_eyes [imgU, imgV] [((3 : ℚ), (7 : ℚ)), (3, 7)] = some [imgU, imgV] :=
  identical_midpoints_identity imgU [imgV] [(3, 7), (3, 7)] (3, 7)
    (by decide) (by simp) (by decide)

/-! Output dimensions, in-bounds pixel provenance and sub-pixel offset
bounds for nondegenerate batches. -/

theorem align_out_dims {α : Type} (i0 : Image α) (rest : List (Image α))
    (mids : List (ℚ × ℚ)) (out : List (Image α))
    (hout : align_eyes (i0 :: rest) mids = some out)
    (hlen : mids.length = (i0 :: rest).length)
    (hsh : ∀ i ∈ i0 :: rest, i.shape = i0.shape)
    (hx : 0 ≤ (bound_low_to_high i0.width i0.height mids).1)
    (hy : 0 ≤ (bound_low_to_high i0.width i0.height mids).2) :
    ∀ o ∈ out, o.width = (bound_low_to_high i0.width i0.height mids).1.toNat ∧
      o.height = (bound_low_to_high i0.width i0.height mids).2.toNat := by
  intro o ho
  obtain ⟨k, hk, rfl⟩ := List.mem_iff_getElem.mp ho
  have hol := align_eyes_length i0 rest mids out hout hlen
  have hk2 : k < (i0 :: rest).length := by omega
  have hk3 : k < (shifts mids).length := by rw [shifts_length, hlen]; omega
  have hcrop := align_eyes_getElem i0 rest mids out hout k hk hk2 hk3
  have hsmem : (shifts mids).get ⟨k, hk3⟩ ∈ shifts mids := List.get_mem _ _ _
  obtain ⟨ho1, ho2⟩ := origin_nonneg hsmem
  obtain ⟨ho3, ho4⟩ := origin_add_size_le i0.width i0.height hsmem
  have himem : (i0 :: rest).get ⟨k, hk2⟩ ∈ i0 :: rest := List.get_mem _ _ _
  have hshape := hsh _ himem
  have hih : ((i0 :: rest).get ⟨k, hk2⟩).height = i0.height := congrArg Prod.fst hshape
  have hiw : ((i0 :: rest).get ⟨k, hk2⟩).width = i0.width := congrArg Prod.snd hshape
  have hget : out[k] = out.get ⟨k, hk⟩ := rfl
  rw [hget, hcrop]
  constructor
  · exact crop_width_eq _ _ _ ho1 hx (by rw [hiw]; exact ho3)
  · exact crop_height_eq _ _ _ ho2 hy (by rw [hih]; exact ho4)

theorem align_out_pix {α : Type} (i0 : Image α) (rest : List (Image α))
    (mids : List (ℚ × ℚ)) (out : List (Image α))
    (hout : align_eyes (i0 :: rest) mids = some out)
    (hlen : mids.length = (i0 :: rest).length)
    (hsh : ∀ i ∈ i0 :: rest, i.shape = i0.shape)
    (hx : 0 ≤ (bound_low_to_high i0.width i0.height mids).1)
    (hy : 0 ≤ (bound_low_to_high i0.width i0.height mids).2) :
    ∀ (k : ℕ) (hk : k < out.length) (hk2 : k < (i0 :: rest).length)
      (hk3 : k < (shifts mids).length) (r c : ℕ),
      r < (bound_low_to_high i0.width i0.height mids).2.toNat →
      c < (bound_low_to_high i0.width i0.height mids).1.toNat →
      (out.get ⟨k, hk⟩).pix r c =
        ((i0 :: rest).get ⟨k, hk2⟩).pix
          ((originOfShift (bound_low mids) ((shifts mids).get ⟨k, hk3⟩)).2.toNat + r)
          ((originOfShift (bound_low mids) ((shifts mids).get ⟨k, hk3⟩)).1.toNat + c) ∧
      (originOfShift (bound_low mids) ((shifts mids).get ⟨k, hk3⟩)).2.toNat + r <
        ((i0 :: rest).get ⟨k, hk2⟩).height ∧
      (originOfShift (bound_low mids) ((shifts mids).get ⟨k, hk3⟩)).1.toNat + c <
        ((i0 :: rest).get ⟨k, hk2⟩).width := by
  intro k hk hk2 hk3 r c hr hc
  have hcrop := align_eyes_getElem i0 rest mids out hout k hk hk2 hk3
  have hsmem : (shifts mids).get ⟨k, hk3⟩ ∈ shifts mids := List.get_mem _ _ _
  obtain ⟨ho1, ho2⟩ := origin_nonneg hsmem
  obtain ⟨ho3, ho4⟩ := origin_add_size_le i0.width i0.height hsmem
  have himem : (i0 :: rest).get ⟨k, hk2⟩ ∈ i0 :: rest := List.get_mem _ _ _
  have hshape := hsh _ himem
  have hih : ((i0 :: rest).get ⟨k, hk2⟩).height = i0.height := congrArg Prod.fst hshape
  have hiw : ((i0 :: rest).get ⟨k, hk2⟩).width = i0.width := congrArg Prod.snd hshape
  refine ⟨?_, ?_, ?_⟩
  · rw [hcrop]
    exact crop_pix_eq _ _ _ r c ho2 (by rw [hih]; omega) ho1 (by rw [hiw]; omega)
  · rw [hih]
    omega
  · rw [hiw]
    omega

theorem offset_subpixel (mids : List (ℚ × ℚ)) (k : ℕ) (hk : k < mids.length) :
    (0 ≤ ((mids.get ⟨k, hk⟩).1 -
        ((originOfShift (bound_low mids) (shiftOf mids (mids.get ⟨k, hk⟩))).1 : ℚ)) -
        ((meanP mids).1 - (bound_low mids).1) ∧
      ((mids.get ⟨k, hk⟩).1 -
        ((originOfShift (bound_low mids) (shiftOf mids (mids.get ⟨k, hk⟩))).1 : ℚ)) -
        ((meanP mids).1 - (bound_low mids).1) < 1) ∧
    (0 ≤ ((mids.get ⟨k, hk⟩).2 -
        ((originOfShift (bound_low mids) (shiftOf mids (mids.get ⟨k, hk⟩))).2 : ℚ)) -
        ((meanP mids).2 - (bound_low mids).2) ∧
      ((mids.get ⟨k, hk⟩).2 -
        ((originOfShift (bound_low mids) (shiftOf mids (mids.get ⟨k, hk⟩))).2 : ℚ)) -
        ((meanP mids).2 - (bound_low mids).2) < 1) := by
  have hsmem : shiftOf mids (mids.get ⟨k, hk⟩) ∈ shifts mids :=
    List.mem_map_of_mem _ (List.get_mem _ _ _)
  obtain ⟨hb1, hb2⟩ := shift_le_bound_low hsmem
  have hv1 : 0 ≤ (bound_low mids).1 - (shiftOf mids (mids.get ⟨k, hk⟩)).1 := by linarith
  have hv2 : 0 ≤ (bound_low mids).2 - (shiftOf mids (mids.get ⟨k, hk⟩)).2 := by linarith
  have h1 := sub_truncZ_nonneg hv1
  have h2 := sub_truncZ_lt_one hv1
  have h3 := sub_truncZ_nonneg hv2
  have h4 := sub_truncZ_lt_one hv2
  simp only [originOfShift, shiftOf] at h1 h2 h3 h4 ⊢
  exact ⟨⟨by linarith, by linarith⟩, ⟨by linarith, by linarith⟩⟩

/-- C1 counterexample: two same-shaped 100 x 100 images, each with
exactly one detected face, with eye midpoints (0,0) and (1/2,0).  Both
crop origins truncate to (0,0), so midpoint minus origin is 0 for the
first image and 1/2 for the second: the offsets are not the same value
for all images. -/
theorem align_eyes_equal_offset_cex :
    img100.shape = imgQ.shape ∧
    find_mid_eye detPQ img100 = .ok (0, 0) ∧
    find_mid_eye detPQ imgQ = .ok (1/2, 0) ∧
    List.zipWith (fun (m : ℚ × ℚ) (o : ℤ × ℤ) => m.1 - (o.1 : ℚ))
      midsPQ (origins midsPQ) = [0, 1/2] ∧
    (0 : ℚ) ≠ 1/2 := by
  refine ⟨by decide, ?_, ?_, ?_, by norm_num⟩
  · rw [find_mid_eye_single detPQ img100 faceP rfl]
    norm_num [midOfFace, faceP]
  · rw [find_mid_eye_single detPQ imgQ faceQ rfl]
    norm_num [midOfFace, faceQ]
  · rw [origins_midsPQ]
    norm_num [midsPQ]

/-- C1 (amended): for every batch of N >= 2 same-shaped images with
one midpoint per image whose computed crop size is nonnegative in both
axes, align_eyes returns one crop per image, all crops share the one
(width, height) given by the computed size; each image's midpoint
minus its crop origin lies within one pixel of the common value
reference minus bound_low (so the per-image offsets agree up to
strictly less than one pixel, exactly when truncation loses nothing);
and every output pixel is read from its own source image at
coordinates strictly inside that image's bounds. -/
theorem align_eyes_shared_crop_subpixel {α : Type} (i0 i1 : Image α)
    (rest : List (Image α)) (mids : List (ℚ × ℚ))
    (hlen : mids.length = (i0 :: i1 :: rest).length)
    (hsh : ∀ i ∈ i0 :: i1 :: rest, i.shape = i0.shape)
    (hx : 0 ≤ (bound_low_to_high i0.width i0.height mids).1)
    (hy : 0 ≤ (bound_low_to_high i0.width i0.height mids).2) :
    ∃ out, align_eyes (i0 :: i1 :: rest) mids = some out ∧
      out.length = (i0 :: i1 :: rest).length ∧
      (∀ o ∈ out, o.width = (bound_low_to_high i0.width i0.height mids).1.toNat ∧
        o.height = (bound_low_to_high i0.width i0.height mids).2.toNat) ∧
      (∀ (k : ℕ) (hk : k < mids.length),
        (0 ≤ ((mids.get ⟨k, hk⟩).1 -
            ((originOfShift (bound_low mids) (shiftOf mids (mids.get ⟨k, hk⟩))).1 : ℚ)) -
            ((meanP mids).1 - (bound_low mids).1) ∧
          ((mids.get ⟨k, hk⟩).1 -
            ((originOfShift (bound_low mids) (shiftOf mids (mids.get ⟨k, hk⟩))).1 : ℚ)) -
            ((meanP mids).1 - (bound_low mids).1) < 1) ∧
        (0 ≤ ((mids.get ⟨k, hk⟩).2 -
            ((originOfShift (bound_low mids) (shiftOf mids (mids.get ⟨k, hk⟩))).2 : ℚ)) -
            ((meanP mids).2 - (bound_low mids).2) ∧
          ((mids.get ⟨k, hk⟩).2 -
            ((originOfShift (bound_low mids) (shiftOf mids (mids.get ⟨k, hk⟩))).2 : ℚ)) -
            ((meanP mids).2 - (bound_low mids).2) < 1)) ∧
      (∀ (k : ℕ) (hk : k < out.length) (hk2 : k < (i0 :: i1 :: rest).length)
        (hk3 : k < (shifts mids).length) (r c : ℕ),
        r < (bound_low_to_high i0.width i0.height mids).2.toNat →
        c < (bound_low_to_high i0.width i0.height mids).1.toNat →
        (out.get ⟨k, hk⟩).pix r c =
          ((i0 :: i1 :: rest).get ⟨k, hk2⟩).pix
            ((originOfShift (bound_low mids) ((shifts mids).get ⟨k, hk3⟩)).2.toNat + r)
            ((originOfShift (bound_low mids) ((shifts mids).get ⟨k, hk3⟩)).1.toNat + c) ∧
        (originOfShift (bound_low mids) ((shifts mids).get ⟨k, hk3⟩)).2.toNat + r <
          ((i0 :: i1 :: rest).get ⟨k, hk2⟩).height ∧
        (originOfShift (bound_low mids) ((shifts mids).get ⟨k, hk3⟩)).1.toNat + c <
          ((i0 :: i1 :: rest).get ⟨k, hk2⟩).width) := by
  obtain ⟨out, hout⟩ : ∃ out, align_eyes (i0 :: i1 :: rest) mids = some out := ⟨_, rfl⟩
  exact ⟨out, hout, align_eyes_length i0 (i1 :: rest) mids out hout hlen,
    align_out_dims i0 (i1 :: rest) mids out hout hlen hsh hx hy,
    fun k hk => offset_subpixel mids k hk,
    align_out_pix i0 (i1 :: rest) mids out hout hlen hsh hx hy⟩

/-- C1 witness: the amended statement instantiated on two 10 x 10
images with midpoints (3,4) and (5,4), whose computed size is (8,10). -/
theorem align_eyes_shared_crop_subpixel_witness :
    ∃ out, align_eyes [imgU, imgV] midsW = some out ∧
      out.length = ([imgU, imgV] : List (Image ℕ)).length ∧
      (∀ o ∈ out, o.width = (bound_low_to_high imgU.width imgU.height midsW).1.toNat ∧
        o.height = (bound_low_to_high imgU.width imgU.height midsW).2.toNat) ∧
      (∀ (k : ℕ) (hk : k < midsW.length),
        (0 ≤ ((midsW.get ⟨k, hk⟩).1 -
            ((originOfShift (bound_low midsW) (shiftOf midsW (midsW.get ⟨k, hk⟩))).1 : ℚ)) -
            ((meanP midsW).1 - (bound_low midsW).1) ∧
          ((midsW.get ⟨k, hk⟩).1 -
            ((originOfShift (bound_low midsW) (shiftOf midsW (midsW.get ⟨k, hk⟩))).1 : ℚ)) -
            ((meanP midsW).1 - (bound_low midsW).1) < 1) ∧
        (0 ≤ ((midsW.get ⟨k, hk⟩).2 -
            ((originOfShift (bound_low midsW) (shiftOf midsW (midsW.get ⟨k, hk⟩))).2 : ℚ)) -
            ((meanP midsW).2 - (bound_low midsW).2) ∧
          ((midsW.get ⟨k, hk⟩).2 -
            ((originOfShift (bound_low midsW) (shiftOf midsW (midsW.get ⟨k, hk⟩))).2 : ℚ)) -
            ((meanP midsW).2 - (bound_low midsW).2) < 1)) ∧
      (∀ (k : ℕ) (hk : k < out.length) (hk2 : k < ([imgU, imgV] : List (Image ℕ)).length)
        (hk3 : k < (shifts midsW).length) (r c : ℕ),
        r < (bound_low_to_high imgU.width imgU.height midsW).2.toNat →
        c < (bound_low_to_high imgU.width imgU.height midsW).1.toNat →
        (out.get ⟨k, hk⟩).pix r c =
          (([imgU, imgV] : List (Image ℕ)).get ⟨k, hk2⟩).pix
            ((originOfShift (bound_low midsW) ((shifts midsW).get ⟨k, hk3⟩)).2.toNat + r)
            ((originOfShift (bound_low midsW) ((shifts midsW).get ⟨k, hk3⟩)).1.toNat + c) ∧
        (originOfShift (bound_low midsW) ((shifts midsW).get ⟨k, hk3⟩)).2.toNat + r <
          (([imgU, imgV] : List (Image ℕ)).get ⟨k, hk2⟩).height ∧
        (originOfShift (bound_low midsW) ((shifts midsW).get ⟨k, hk3⟩)).1.toNat + c <
          (([imgU, imgV] : List (Image ℕ)).get ⟨k, hk2⟩).width) :=
  align_eyes_shared_crop_subpixel imgU imgV [] midsW (by decide) (by decide)
    (by show 0 ≤ (bound_low_to_high 10 10 midsW).1; rw [blt_midsW]; decide)
    (by show 0 ≤ (bound_low_to_high 10 10 midsW).2; rw [blt_midsW]; decide)

/-- Dimensions of the two crops produced on the degenerate batch: the
wrap-around of the negative slice bound gives the first image a 7-wide
crop while the second image's slice is empty. -/
theorem align_eyes_midsDeg_dims :
    (align_eyes [imgU, imgV] midsDeg).map (List.map fun i => (i.height, i.width)) =
      some [(10, 7), (10, 0)] := by
  simp only [align_eyes, shifts_midsDeg]
  simp only [List.zip, List.zipWith, List.map_cons, List.map_nil]
  simp only [bound_low_midsDeg, originOfShift]
  norm_num [truncZ, crop, sliceIdx, imgU, imgV, bound_low_to_high,
    minShift_midsDeg, bound_low_midsDeg, listMin, listMax, ceil_via_floor]
  decide

/-- C8 counterexample: two same-shaped 10 x 10 images, each yielding
exactly one detected face, with eye midpoints (0,0) and (13,0).  main
succeeds, but the first output is 10 x 7 while the second is 10 x 0:
the outputs do not share identical dimensions. -/
theorem main_output_dims_cex :
    imgU.shape = imgV.shape ∧
    find_mid_eye detUV imgU = .ok (0, 0) ∧
    find_mid_eye detUV imgV = .ok (13, 0) ∧
    (main detUV [imgU, imgV]).1.toOption.map (List.map fun i => (i.height, i.width)) =
      some [(10, 7), (10, 0)] ∧
    ((10, 7) : ℕ × ℕ) ≠ (10, 0) := by
  refine ⟨by decide, ?_, ?_, ?_, by decide⟩
  · rw [find_mid_eye_single detUV imgU faceP rfl]
    norm_num [midOfFace, faceP]
  · rw [find_mid_eye_single detUV imgV faceD rfl]
    norm_num [midOfFace, faceD]
  · have hcm : collectMids detUV [imgU, imgV] = (.ok midsDeg, [imgU, imgV]) := by
      rw [collectMids_ok detUV fsUV [imgU, imgV] (fun i _ => rfl)]
      norm_num [imgU, imgV, fsUV, faceP, faceD, midOfFace, midsDeg]
    obtain ⟨out, hout⟩ : ∃ out, align_eyes [imgU, imgV] midsDeg = some out := ⟨_, rfl⟩
    have hsh : ∀ i ∈ ([imgU, imgV] : List (Image ℕ)), i.shape = imgU.shape := by decide
    have hmain : main detUV [imgU, imgV] = (.ok out, [imgU, imgV]) := by
      simp only [main, firstMismatch_none hsh, hcm, hout]
    rw [hmain]
    have hdim := align_eyes_midsDeg_dims
    rw [hout] at hdim
    simpa [Except.toOption] using hdim

/-- C8 (amended): for every batch of 2 or more same-shaped images in
which every image yields exactly one detected face (keyed face_1) and
whose computed crop size is nonnegative in both axes, main succeeds
after calling the detector once per image in input order, its output
has the same length as the input, every output image has the one
shared (width, height) given by the computed size, which is bounded by
the input dimensions in both axes, and the order is preserved: the
k-th output is exactly the slice of the k-th input image at that
image's computed crop origin. -/
theorem main_batch_output_dims {α : Type}
    (detect : Image α → List (String × Face)) (fs : Image α → Face)
    (i0 i1 : Image α) (rest : List (Image α))
    (hsh : ∀ i ∈ i0 :: i1 :: rest, i.shape = i0.shape)
    (hdet : ∀ i ∈ i0 :: i1 :: rest, detect i = [("face_1", fs i)])
    (hx : 0 ≤ (bound_low_to_high i0.width i0.height
      ((i0 :: i1 :: rest).map fun i => midOfFace (fs i))).1)
    (hy : 0 ≤ (bound_low_to_high i0.width i0.height
      ((i0 :: i1 :: rest).map fun i => midOfFace (fs i))).2) :
    ∃ out, main detect (i0 :: i1 :: rest) = (.ok out, i0 :: i1 :: rest) ∧
      out.length = (i0 :: i1 :: rest).length ∧
      (∀ o ∈ out,
        o.width = (bound_low_to_high i0.width i0.height
          ((i0 :: i1 :: rest).map fun i => midOfFace (fs i))).1.toNat ∧
        o.height = (bound_low_to_high i0.width i0.height
          ((i0 :: i1 :: rest).map fun i => midOfFace (fs i))).2.toNat ∧
        o.width ≤ i0.width ∧ o.height ≤ i0.height) ∧
      (∀ (k : ℕ) (hk : k < out.length) (hk2 : k < (i0 :: i1 :: rest).length)
        (hk3 : k < (shifts ((i0 :: i1 :: rest).map fun i => midOfFace (fs i))).length),
        out.get ⟨k, hk⟩ = crop ((i0 :: i1 :: rest).get ⟨k, hk2⟩)
          (originOfShift (bound_low ((i0 :: i1 :: rest).map fun i => midOfFace (fs i)))
            ((shifts ((i0 :: i1 :: rest).map fun i => midOfFace (fs i))).get ⟨k, hk3⟩)).2
          ((originOfShift (bound_low ((i0 :: i1 :: rest).map fun i => midOfFace (fs i)))
            ((shifts ((i0 :: i1 :: rest).map fun i => midOfFace (fs i))).get ⟨k, hk3⟩)).2 +
            (bound_low_to_high i0.width i0.height
              ((i0 :: i1 :: rest).map fun i => midOfFace (fs i))).2)
          (originOfShift (bound_low ((i0 :: i1 :: rest).map fun i => midOfFace (fs i)))
            ((shifts ((i0 :: i1 :: rest).map fun i => midOfFace (fs i))).get ⟨k, hk3⟩)).1
          ((originOfShift (bound_low ((i0 :: i1 :: rest).map fun i => midOfFace (fs i)))
            ((shifts ((i0 :: i1 :: rest).map fun i => midOfFace (fs i))).get ⟨k, hk3⟩)).1 +
            (bound_low_to_high i0.width i0.height
              ((i0 :: i1 :: rest).map fun i => midOfFace (fs i))).1)) := by
  have hlen : ((i0 :: i1 :: rest).map fun i => midOfFace (fs i)).length =
      (i0 :: i1 :: rest).length := List.length_map _ _
  obtain ⟨out, hout⟩ : ∃ out,
      align_eyes (i0 :: i1 :: rest) ((i0 :: i1 :: rest).map fun i => midOfFace (fs i)) =
        some out := ⟨_, rfl⟩
  have hmain : main detect (i0 :: i1 :: rest) = (.ok out, i0 :: i1 :: rest) := by
    simp only [main, firstMismatch_none hsh, collectMids_ok detect fs _ hdet, hout]
  refine ⟨out, hmain, align_eyes_length _ _ _ _ hout hlen, ?_,
    fun k hk hk2 hk3 => align_eyes_getElem i0 (i1 :: rest)
      ((i0 :: i1 :: rest).map fun i => midOfFace (fs i)) out hout k hk hk2 hk3⟩
  intro o ho
  obtain ⟨hw, hh⟩ := align_out_dims i0 (i1 :: rest)
    ((i0 :: i1 :: rest).map fun i => midOfFace (fs i)) out hout hlen hsh hx hy o ho
  have hk3 : 0 < (shifts ((i0 :: i1 :: rest).map fun i => midOfFace (fs i))).length := by
    rw [shifts_length, hlen]
    simp
  have hsmem : (shifts ((i0 :: i1 :: rest).map fun i => midOfFace (fs i))).get ⟨0, hk3⟩ ∈
      shifts ((i0 :: i1 :: rest).map fun i => midOfFace (fs i)) := List.get_mem _ _ _
  obtain ⟨h1, h2⟩ := origin_nonneg hsmem
  obtain ⟨h3, h4⟩ := origin_add_size_le i0.width i0.height hsmem
  refine ⟨hw, hh, ?_, ?_⟩
  · rw [hw]; omega
  · rw [hh]; omega

/-- C8 witness: the amended statement instantiated on two 100 x 100
images whose single faces have midpoints (0,0) and (1/2,0); the
computed size is (99,100). -/
theorem main_batch_output_dims_witness :
    ∃ out, main detPQ [img100, imgQ] = (.ok out, [img100, imgQ]) ∧
      out.length = ([img100, imgQ] : List (Image ℕ)).length ∧
      (∀ o ∈ out,
        o.width = (bound_low_to_high img100.width img100.height
          (([img100, imgQ] : List (Image ℕ)).map fun i => midOfFace (fsPQ i))).1.toNat ∧
        o.height = (bound_low_to_high img100.width img100.height
          (([img100, imgQ] : List (Image ℕ)).map fun i => midOfFace (fsPQ i))).2.toNat ∧
        o.width ≤ img100.width ∧ o.height ≤ img100.height) ∧
      (∀ (k : ℕ) (hk : k < out.length)
        (hk2 : k < ([img100, imgQ] : List (Image ℕ)).length)
        (hk3 : k < (shifts (([img100, imgQ] : List (Image ℕ)).map
          fun i => midOfFace (fsPQ i))).length),
        out.get ⟨k, hk⟩ = crop (([img100, imgQ] : List (Image ℕ)).get ⟨k, hk2⟩)
          (originOfShift (bound_low (([img100, imgQ] : List (Image ℕ)).map
              fun i => midOfFace (fsPQ i)))
            ((shifts (([img100, imgQ] : List (Image ℕ)).map
              fun i => midOfFace (fsPQ i))).get ⟨k, hk3⟩)).2
          ((originOfShift (bound_low (([img100, imgQ] : List (Image ℕ)).map
              fun i => midOfFace (fsPQ i)))
            ((shifts (([img100, imgQ] : List (Image ℕ)).map
              fun i => midOfFace (fsPQ i))).get ⟨k, hk3⟩)).2 +
            (bound_low_to_high img100.width img100.height
              (([img100, imgQ] : List (Image ℕ)).map fun i => midOfFace (fsPQ i))).2)
          (originOfShift (bound_low (([img100, imgQ] : List (Image ℕ)).map
              fun i => midOfFace (fsPQ i)))
            ((shifts (([img100, imgQ] : List (Image ℕ)).map
              fun i => midOfFace (fsPQ i))).get ⟨k, hk3⟩)).1
          ((originOfShift (bound_low (([img100, imgQ] : List (Image ℕ)).map
              fun i => midOfFace (fsPQ i)))
            ((shifts (([img100, imgQ] : List (Image ℕ)).map
              fun i => midOfFace (fsPQ i))).get ⟨k, hk3⟩)).1 +
            (bound_low_to_high img100.width img100.height
              (([img100, imgQ] : List (Image ℕ)).map fun i => midOfFace (fsPQ i))).1)) :=
  main_batch_output_dims detPQ fsPQ img100 imgQ [] (by decide) (fun i _ => rfl)
    (by
      have hm : (([img100, imgQ] : List (Image ℕ)).map fun i => midOfFace (fsPQ i)) =
          midsPQ := by
        norm_num [img100, imgQ, fsPQ, faceP, faceQ, midOfFace, midsPQ]
      show 0 ≤ (bound_low_to_high 100 100
        (([img100, imgQ] : List (Image ℕ)).map fun i => midOfFace (fsPQ i))).1
      rw [hm, blt_midsPQ]
      decide)
    (by
      have hm : (([img100, imgQ] : List (Image ℕ)).map fun i => midOfFace (fsPQ i)) =
          midsPQ := by
        norm_num [img100, imgQ, fsPQ, faceP, faceQ, midOfFace, midsPQ]
      show 0 ≤ (bound_low_to_high 100 100
        (([img100, imgQ] : List (Image ℕ)).map fun i => midOfFace (fsPQ i))).2
      rw [hm, blt_midsPQ]
      decide)

end EyeAlign
